import Mathlib

/-!
Shallow embedding of the WimPyAmp audio engine
(`src/audio/audio_engine.py`, class `AudioEngine`) together with proofs
about its state machine, equalizer, seek behaviour, spectrum analyser
and visualization delivery queue.

Conventions used throughout:

* Sample data and DSP math are modelled over `ℝ`; positions, durations
  and sample rates over `ℚ`.  Every property proved here is exact
  arithmetic on the source's formulas, so no rounding model is needed.
* `self.sample_rate` starts out as Python `None`; it is modelled as
  `Option ℚ`.
* External libraries are I/O boundaries: the librosa decode result is
  passed to `load_track` as an `Except Unit (AudioData × ℚ)` value, the
  sounddevice output buffer is not modelled (the callback's writes to
  `outdata` leave the engine object untouched), thread starts/joins are
  concurrency and are not modelled, and mutagen metadata extraction is
  omitted (it runs only on the successful load path and touches no
  field the claims mention).
-/

open scoped BigOperators

/-- A decoded librosa buffer: with `mono=False` librosa returns a 1-D
array for mono files and a 2-D `[channels, samples]` array otherwise. -/
inductive AudioData where
  | oneD (samples : List ℝ)
  | twoD (channels : List (List ℝ))

/-- `self.audio_data.shape[-1] if self.audio_data.ndim > 1 else
len(self.audio_data)`: the per-channel sample count (numpy arrays are
rectangular, so the first channel's length is `shape[-1]`). -/
def shapeLast : AudioData → ℕ
  | .oneD l => l.length
  | .twoD chans => chans.headI.length

/-- Python `len` of a numpy array: its first dimension. -/
def pyLen : AudioData → ℕ
  | .oneD l => l.length
  | .twoD chans => chans.length

/-- `np.pad(chunk, (0, frames - len(chunk)), mode="constant")`: pad a
slice on the right with zeros up to `frames` samples (a no-op when the
slice already has `frames` samples, matching the source's guard). -/
def padTo (frames : ℕ) (l : List ℝ) : List ℝ :=
  l ++ List.replicate (frames - l.length) 0

/-- Chunk extraction in `audio_callback`: slice `[start_idx:end_idx]`
of each channel, zero-padded to `frames` samples. -/
def extractChunk (d : AudioData) (start_idx end_idx frames : ℕ) : AudioData :=
  match d with
  | .oneD l => .oneD (padTo frames ((l.drop start_idx).take (end_idx - start_idx)))
  | .twoD chans =>
      .twoD (chans.map fun c => padTo frames ((c.drop start_idx).take (end_idx - start_idx)))

/-- Numpy scalar multiplication `chunk * g`. -/
noncomputable def scaleAudio (g : ℝ) : AudioData → AudioData
  | .oneD l => .oneD (l.map (· * g))
  | .twoD chans => .twoD (chans.map fun c => c.map (· * g))

/-- A Python `queue.Queue`: `maxsize = 0` (the default used by the
constructor argument-free call) means unbounded. -/
structure PyQueue (α : Type) where
  maxsize : ℕ
  items : List α

/-- `queue.Queue` is full exactly when `0 < maxsize ≤ qsize()`. -/
def PyQueue.isFull {α : Type} (q : PyQueue α) : Bool :=
  decide (0 < q.maxsize) && decide (q.maxsize ≤ q.items.length)

/-- `put(x, block=False)`: raises `queue.Full` when full, else appends. -/
def PyQueue.putNowait {α : Type} (q : PyQueue α) (x : α) : Except Unit (PyQueue α) :=
  if q.isFull then .error () else .ok { q with items := q.items ++ [x] }

/-- `get_nowait()`: raises `queue.Empty` when empty, else pops the
oldest item. -/
def PyQueue.getNowait {α : Type} (q : PyQueue α) : Except Unit (α × PyQueue α) :=
  match q.items with
  | [] => .error ()
  | y :: rest => .ok (y, { q with items := rest })

/-- A visualization frame: the spectrum band list or the raw
oscilloscope samples pushed by `_visualization_worker`. -/
def VisFrame : Type := List ℝ

/-- `self.vis_data_queue = queue.Queue()` in `__init__`: constructed
with no `maxsize` argument, i.e. Python's unbounded default. -/
def initVisQueue : PyQueue VisFrame :=
  { maxsize := 0, items := [] }

/-- The queue-delivery logic of `_visualization_worker` (lines
563-574): try a non-blocking put; on `queue.Full`, drop the oldest item
and retry the put (on `queue.Empty` from the drop, give up; a `Full`
from the retry cannot occur after a successful drop). -/
def visWorkerPut (q : PyQueue VisFrame) (x : VisFrame) : PyQueue VisFrame :=
  match q.putNowait x with
  | .ok q1 => q1
  | .error _ =>
      match q.getNowait with
      | .ok (_, q1) =>
          match q1.putNowait x with
          | .ok q2 => q2
          | .error _ => q1
      | .error _ => q

/-- The mutable fields of `AudioEngine` that the modelled operations
read or write.  Thread handles, events and locks are concurrency
primitives and are not part of the sequential model. -/
structure EngineState where
  audio_data : Option AudioData
  sample_rate : Option ℚ
  current_position : ℚ
  is_playing : Bool
  is_paused : Bool
  eq_bands : List (String × ℝ)
  file_path : Option String
  duration : ℚ
  volume : ℝ
  balance : ℝ
  is_eq_on : Bool
  seek_requested : Bool
  seek_position : ℚ
  vis_mode : String
  vis_data_queue : PyQueue VisFrame
  audio_buffer : List ℝ

/-- `AudioEngine.__init__`. -/
def initEngine : EngineState :=
  { audio_data := none
    sample_rate := none
    current_position := 0
    is_playing := false
    is_paused := false
    eq_bands := []
    file_path := none
    duration := 0
    volume := 1
    balance := 0
    is_eq_on := false
    seek_requested := false
    seek_position := 0
    vis_mode := "SPECTRUM"
    vis_data_queue := initVisQueue
    audio_buffer := [] }

/-- `AudioEngine._ensure_stopped` (the thread join is concurrency and
has no effect on the modelled fields). -/
def ensure_stopped (s : EngineState) : EngineState :=
  if s.is_playing || s.is_paused then
    { s with is_playing := false, is_paused := false }
  else s

/-- `AudioEngine.play`.  After `_ensure_stopped`, `is_playing` is
always false, but the source re-reads it and we keep that check. -/
def play (s : EngineState) : EngineState :=
  match s.audio_data with
  | none => s
  | some _ =>
      let was_paused := s.is_paused
      let s1 := ensure_stopped s
      let s2 := if !was_paused && !s1.is_playing then { s1 with current_position := 0 } else s1
      { s2 with is_playing := true, is_paused := false }

/-- `AudioEngine.pause`. -/
def pause (s : EngineState) : EngineState :=
  if s.is_playing then { s with is_paused := true, is_playing := false } else s

/-- `AudioEngine.stop` (the `stop_event` and thread join are
concurrency primitives, not modelled fields). -/
def stop (s : EngineState) : EngineState :=
  { s with is_playing := false, is_paused := false, current_position := 0 }

/-- `AudioEngine.set_volume`. -/
noncomputable def set_volume (s : EngineState) (v : ℝ) : EngineState :=
  { s with volume := max 0 (min 1 v) }

/-- `AudioEngine.set_balance`. -/
noncomputable def set_balance (s : EngineState) (b : ℝ) : EngineState :=
  { s with balance := max (-1) (min 1 b) }

/-- `AudioEngine.toggle_eq`. -/
def toggle_eq (s : EngineState) (enabled : Bool) : EngineState :=
  { s with is_eq_on := enabled }

/-- A control call in a `play`/`pause`/`stop` sequence. -/
inductive PlayOp where
  | play
  | pause
  | stop

/-- Run a sequence of `play`/`pause`/`stop` control calls. -/
def runOps (s : EngineState) (ops : List PlayOp) : EngineState :=
  ops.foldl
    (fun s op =>
      match op with
      | .play => play s
      | .pause => pause s
      | .stop => stop s)
    s

/-- The `default_bands` dict of `AudioEngine.set_eq`: all 11 named
bands at 0 dB. -/
def defaultBands : List (String × ℝ) :=
  [("preamp", 0), ("60hz", 0), ("170hz", 0), ("310hz", 0), ("600hz", 0),
   ("1khz", 0), ("3khz", 0), ("6khz", 0), ("12khz", 0), ("14khz", 0), ("16khz", 0)]

/-- The 11 band names, in the order `default_bands` declares them. -/
def bandNames : List String :=
  ["preamp", "60hz", "170hz", "310hz", "600hz",
   "1khz", "3khz", "6khz", "12khz", "14khz", "16khz"]

/-- `default_bands[key] = value` on an association list whose keys are
unique: replace the value stored at `k`. -/
def updateAssoc (l : List (String × ℝ)) (k : String) (v : ℝ) : List (String × ℝ) :=
  l.map fun p => if p.1 = k then (k, v) else p

/-- Python dict lookup on an association list (first match; the dicts
modelled here have unique keys). -/
def lookupStr : List (String × ℝ) → String → Option ℝ
  | [], _ => none
  | p :: rest, name => if p.1 = name then some p.2 else lookupStr rest name

/-- One iteration of `set_eq`'s update loop:
`if key in default_bands: default_bands[key] = value`. -/
def setEqStep (acc : List (String × ℝ)) (kv : String × ℝ) : List (String × ℝ) :=
  if kv.1 ∈ acc.map Prod.fst then updateAssoc acc kv.1 kv.2 else acc

/-- `AudioEngine.set_eq`: build `default_bands`, overwrite the entries
whose keys the caller supplied, and store the result.  (The source's
first line `self.eq_bands = bands.copy()` is dead: the final assignment
`self.eq_bands = default_bands` overwrites it.)  The caller's dict is
modelled as its item list, whose keys are unique. -/
def set_eq (s : EngineState) (bands : List (String × ℝ)) : EngineState :=
  { s with eq_bands := bands.foldl setEqStep defaultBands }

/-- Last-write-wins lookup matching `foldl setEqStep`'s overwrite
order; on a duplicate-free key list it coincides with `List.lookup`. -/
def lookupLast : List (String × ℝ) → String → Option ℝ
  | [], _ => none
  | kv :: rest, name =>
      match lookupLast rest name with
      | some w => some w
      | none => if kv.1 = name then some kv.2 else none

/-- dB to linear gain, `10 ** (db_gain / 20.0)`. -/
noncomputable def dbToLinear (db : ℝ) : ℝ :=
  Real.rpow 10 (db / 20)

/-- The `gains` dict built by `_apply_eq_to_chunk`: one linear gain per
stored band.  (The source indexes `gains[band]` only with keys present
in `eq_bands`; absent keys are mapped to the neutral gain here, a state
the source never reaches without raising `KeyError`.) -/
noncomputable def gainsOf (eq_bands : List (String × ℝ)) (name : String) : ℝ :=
  dbToLinear ((lookupStr eq_bands name).getD 0)

/-- The direct-form biquad difference equation applied by
`scipy.signal.lfilter` with `a0` normalized to 1 and zero initial
conditions, carrying the two previous inputs and outputs. -/
noncomputable def biquadGo (b0 b1 b2 a1 a2 : ℝ) :
    List ℝ → ℝ → ℝ → ℝ → ℝ → List ℝ
  | [], _, _, _, _ => []
  | x :: rest, x1, x2, y1, y2 =>
      let y := b0 * x + b1 * x1 + b2 * x2 - a1 * y1 - a2 * y2
      y :: biquadGo b0 b1 b2 a1 a2 rest x x1 y y1

/-- `AudioEngine._apply_peaking_filter`: audio-EQ-cookbook peaking
coefficients with fixed `Q = 1.41`, normalized by `a0`, applied by
`scipy.signal.lfilter`. -/
noncomputable def apply_peaking_filter (chunkIn : List ℝ)
    (center_freq db_gain sr : ℝ) : List ℝ :=
  let q : ℝ := 1.41
  let A := Real.rpow 10 (db_gain / 40)
  let w0 := 2 * Real.pi * center_freq / sr
  let cos_w0 := Real.cos w0
  let sin_w0 := Real.sin w0
  let alpha := sin_w0 / (2 * q)
  let b0 := 1 + alpha * A
  let b1 := -2 * cos_w0
  let b2 := 1 - alpha * A
  let a0 := 1 + alpha / A
  let a1 := -2 * cos_w0
  let a2 := 1 - alpha / A
  biquadGo (b0 / a0) (b1 / a0) (b2 / a0) (a1 / a0) (a2 / a0) chunkIn 0 0 0 0

/-- The `(band name, center frequency)` table of
`AudioEngine._apply_eq_to_mono`. -/
def eqBandFreqs : List (String × ℝ) :=
  [("60hz", 60), ("170hz", 170), ("310hz", 310), ("600hz", 600), ("1khz", 1000),
   ("3khz", 3000), ("6khz", 6000), ("12khz", 12000), ("14khz", 14000), ("16khz", 16000)]

/-- `AudioEngine._apply_eq_to_mono`: apply each non-zero band's peaking
filter in increasing frequency order (`astype(np.float64)` is the
identity on our `ℝ` samples). -/
noncomputable def apply_eq_to_mono (eq_bands : List (String × ℝ)) (sr : ℝ)
    (mono_chunk : List ℝ) : List ℝ :=
  eqBandFreqs.foldl
    (fun processed bf =>
      let db := (lookupStr eq_bands bf.1).getD 0
      if db ≠ 0 then apply_peaking_filter processed bf.2 db sr else processed)
    mono_chunk

open Classical in
/-- `AudioEngine._apply_eq_to_chunk`: short-circuit when the band dict
is empty or every stored gain is exactly 0 dB, otherwise apply the
preamp gain (skipped when it is the neutral 1.0) and then the per-band
filters, per channel. -/
noncomputable def apply_eq_to_chunk (s : EngineState) (chunk : AudioData) : AudioData :=
  if s.eq_bands = [] ∨ ¬ (∃ p ∈ s.eq_bands, p.2 ≠ 0) then chunk
  else
    let sr : ℝ := ((s.sample_rate.getD 0 : ℚ) : ℝ)
    let preampGain := gainsOf s.eq_bands "preamp"
    let chunk1 := if preampGain ≠ 1 then scaleAudio preampGain chunk else chunk
    match chunk1 with
    | .oneD l => .oneD (apply_eq_to_mono s.eq_bands sr l)
    | .twoD [l, r] =>
        .twoD [apply_eq_to_mono s.eq_bands sr l, apply_eq_to_mono s.eq_bands sr r]
    | .twoD [c] => .twoD [apply_eq_to_mono s.eq_bands sr c]
    | c => c

/-- Python `int()` applied to a rational: truncation toward zero. -/
def ratTrunc (x : ℚ) : ℤ :=
  if 0 ≤ x then ⌊x⌋ else ⌈x⌉

/-- `AudioEngine.seek`: convert the fraction to an absolute sample
index, clamp the corresponding time into `[0, duration]`, and record
the pending seek request for the callback to adopt. -/
def seek (s : EngineState) (fraction : ℚ) : EngineState :=
  match s.audio_data with
  | none => s
  | some _ =>
      let sr := s.sample_rate.getD 0
      if 0 < sr then
        let target_sample : ℤ := ratTrunc (fraction * s.duration * sr)
        let target_time : ℚ := max 0 (min s.duration ((target_sample : ℚ) / sr))
        { s with current_position := target_time,
                 seek_position := target_time, seek_requested := true }
      else s

/-- The balance stage of `audio_callback`: a linear pan applied only
when the loaded track (not the chunk) is 2-D with exactly 2 channels;
a chunk with a single channel is duplicated into a balanced pair, and
extra channels beyond the first two are passed through. -/
noncomputable def applyBalance (d : AudioData) (bal : ℝ) (chunk : AudioData) : AudioData :=
  match d with
  | .oneD _ => chunk
  | .twoD chans =>
      if chans.length = 2 then
        let left_gain := min 1 (1 - bal)
        let right_gain := min 1 (1 + bal)
        match chunk with
        | .twoD (l :: r :: rest) =>
            .twoD (l.map (· * left_gain) :: r.map (· * right_gain) :: rest)
        | .twoD [c] => .twoD [c.map (· * left_gain), c.map (· * right_gain)]
        | c => c
      else chunk

/-- The mono mix appended to the visualization buffer: channel mean for
multi-channel chunks, first channel for a single-channel 2-D chunk. -/
noncomputable def monoMix : AudioData → List ℝ
  | .oneD l => l
  | .twoD chans =>
      if 1 < chans.length then
        (List.range chans.headI.length).map
          (fun j => (chans.map fun c => c.getD j 0).sum / (chans.length : ℝ))
      else chans.headI

/-- Appending to `self.audio_buffer`, a `deque(maxlen=2048)`: keep the
most recent 2048 samples. -/
def appendRing (buf xs : List ℝ) : List ℝ :=
  let all := buf ++ xs
  all.drop (all.length - 2048)

/-- One invocation of the `audio_callback` closure inside
`AudioEngine._playback_worker`, for loaded track `d` (the source reads
`self.audio_data`, which is `some d` whenever the worker runs).  Writes
to the device's `outdata` buffer and the throttled UI callback are
external side effects; everything that mutates the engine object is
modelled.  Returns the updated state and the new `start_idx`. -/
noncomputable def audio_callback (d : AudioData) (s : EngineState)
    (start_idx frames : ℕ) : EngineState × ℕ :=
  let sr : ℚ := s.sample_rate.getD 0
  let seekStep : EngineState × ℕ :=
    if s.seek_requested then
      ({ s with current_position := s.seek_position, seek_requested := false },
       (ratTrunc (s.seek_position * sr)).toNat)
    else (s, start_idx)
  let s1 := seekStep.1
  let start1 := seekStep.2
  let total := shapeLast d
  let end_idx := min (start1 + frames) total
  let chunk0 := extractChunk d start1 end_idx frames
  let chunk1 := scaleAudio s1.volume chunk0
  let chunk2 := applyBalance d s1.balance chunk1
  let chunk3 := if s1.is_eq_on then apply_eq_to_chunk s1 chunk2 else chunk2
  let new_position : ℚ := if 0 < sr then (end_idx : ℚ) / sr else 0
  let new_position := max 0 (min new_position s1.duration)
  let s2 := { s1 with current_position := new_position }
  let s3 := { s2 with audio_buffer := appendRing s2.audio_buffer (monoMix chunk3) }
  let s4 := if total ≤ end_idx then { s3 with is_playing := false, is_paused := false } else s3
  (s4, end_idx)

/-- Python `int()` applied to a real: truncation toward zero. -/
noncomputable def pyTruncR (x : ℝ) : ℤ :=
  if 0 ≤ x then ⌊x⌋ else ⌈x⌉

/-- The k-th bin of `np.fft.rfft` on a real input list. -/
noncomputable def dft (x : List ℝ) (k : ℕ) : ℂ :=
  ∑ j ∈ Finset.range x.length,
    (x.getD j 0 : ℂ) * Complex.exp (-(2 * Real.pi * Complex.I * j * k) / x.length)

/-- `np.hanning(M)`. -/
noncomputable def hannWindow (M : ℕ) : List ℝ :=
  (List.range M).map fun j => 0.5 - 0.5 * Real.cos (2 * Real.pi * j / ((M : ℝ) - 1))

/-- `np.logspace(np.log10(20), np.log10(20000), 20)`: the 20
logarithmically spaced band-edge frequencies. -/
noncomputable def logspaceFreqs : List ℝ :=
  (List.range 20).map fun i =>
    Real.rpow 10 (Real.logb 10 20 + (i : ℝ) * ((Real.logb 10 20000 - Real.logb 10 20) / 19))

/-- The per-band magnitude of `_process_spectrum_data`: the mean of the
magnitude bins in `[start_bin, end_bin)` when that slice is nonempty,
else the single nearest bin (or 0 for an out-of-range index). -/
noncomputable def bandMagnitude (magnitude : List ℝ) (start_bin end_bin : ℕ) : ℝ :=
  if start_bin < end_bin then
    ((magnitude.drop start_bin).take (end_bin - start_bin)).sum /
      (((magnitude.drop start_bin).take (end_bin - start_bin)).length : ℝ)
  else if start_bin < magnitude.length then magnitude.getD start_bin 0
  else 0

/-- `AudioEngine._process_spectrum_data`.  The input buffer is the
`deque` of mono samples filled one scalar at a time by the callback, so
it is always one-dimensional; the source's dead stereo branches are
therefore not represented.  `sample_rate` is `self.sample_rate`
(defaulted to 44100 when still `None`). -/
noncomputable def process_spectrum_data (sample_rate : Option ℚ)
    (audio_samples : List ℝ) : List ℝ :=
  if audio_samples.length < 512 then List.replicate 19 0
  else
    let fft_size := min 2048 audio_samples.length
    let samples_for_fft := audio_samples.drop (audio_samples.length - fft_size)
    let windowed := List.zipWith (· * ·) samples_for_fft (hannWindow fft_size)
    let magnitude := (List.range (fft_size / 2 + 1)).map
      fun k => Complex.abs (dft windowed k) / ((fft_size : ℝ) / 2)
    let sr : ℝ := ((sample_rate.getD 44100 : ℚ) : ℝ)
    let band_edges : List ℕ := logspaceFreqs.map
      fun f => min (magnitude.length - 1) (pyTruncR (f * (fft_size : ℝ) / sr)).toNat
    (List.range 19).map fun i =>
      min 1 (Real.rpow (bandMagnitude magnitude (band_edges.getD i 0) (band_edges.getD (i + 1) 0)) (3 / 10))

/-- `AudioEngine.is_stereo_track`:
`self.audio_data.ndim > 1 and self.audio_data.shape[0] == 2`, with the
no-track default of `True`. -/
def is_stereo_track (s : EngineState) : Bool :=
  match s.audio_data with
  | some (.oneD _) => false
  | some (.twoD chans) => chans.length == 2
  | none => true

/-- `AudioEngine.load_track`.  `dec` is the outcome of
`librosa.load(file_path, sr=None, mono=False)`: an exception (caught by
the handler wrapping the whole body) or a decoded buffer with its
sample rate.  `librosa.get_duration(y, sr)` is `shape[-1] / sr`; the
guard on the duration assignment is the source's truthiness test of
`self.sample_rate`.  Metadata extraction (mutagen I/O, successful path
only) is not modelled. -/
def load_track (s : EngineState) (file_path : String)
    (dec : Except Unit (AudioData × ℚ)) : Bool × EngineState :=
  let s0 := ensure_stopped s
  match dec with
  | .error _ => (false, s0)
  | .ok (ad, sr) =>
      let s1 := { s0 with
        audio_data := some ad
        sample_rate := some sr
        current_position := 0
        file_path := some file_path
        duration := if sr ≠ 0 then ((shapeLast ad : ℚ) / sr) else 0
        seek_requested := false
        seek_position := 0 }
      if pyLen ad = 0 then (false, s1) else (true, s1)

/-- A state with a 1-sample mono track loaded and playing, used to
exhibit concrete behaviours of `load_track`. -/
def oldTrackState : EngineState :=
  { initEngine with
      audio_data := some (.oneD [1])
      sample_rate := some 44100
      file_path := some "old.mp3"
      duration := 1 / 44100
      is_playing := true }

/-- The 10-second 44100 Hz mono silent track of the end-to-end
scenario. -/
def track10s : AudioData :=
  .oneD (List.replicate 441000 0)

/-- The engine playing `track10s`. -/
def engine10s : EngineState :=
  { initEngine with
      audio_data := some track10s
      sample_rate := some 44100
      duration := 10
      file_path := some "silent.wav"
      is_playing := true }

/-- A loaded 2-sample track at 2 Hz (duration 1 s), used to exercise
`seek`. -/
def seekDemoState : EngineState :=
  { initEngine with
      audio_data := some (.oneD [0, 0])
      sample_rate := some 2
      duration := 1
      file_path := some "two.wav" }

/-! ## State-machine exclusivity -/

/-- `isPlaying` and `isPaused` are not both true. -/
def ExclusiveInv (s : EngineState) : Prop :=
  s.is_playing = false ∨ s.is_paused = false

theorem exclusiveInv_play (s : EngineState) (h : ExclusiveInv s) :
    ExclusiveInv (play s) := by
  cases hd : s.audio_data with
  | none => simpa [play, hd] using h
  | some d => exact Or.inr (by simp [play, hd])

theorem exclusiveInv_pause (s : EngineState) (h : ExclusiveInv s) :
    ExclusiveInv (pause s) := by
  unfold pause
  split
  · exact Or.inl rfl
  · exact h

theorem exclusiveInv_stop (s : EngineState) : ExclusiveInv (stop s) :=
  Or.inl rfl

theorem exclusiveInv_runOps (ops : List PlayOp) :
    ∀ s : EngineState, ExclusiveInv s → ExclusiveInv (runOps s ops) := by
  induction ops with
  | nil => exact fun s h => h
  | cons op rest ih =>
      intro s h
      have hstep : ExclusiveInv
          (match op with
           | .play => play s
           | .pause => pause s
           | .stop => stop s) := by
        cases op
        · exact exclusiveInv_play s h
        · exact exclusiveInv_pause s h
        · exact exclusiveInv_stop s
      simpa [runOps, List.foldl_cons] using ih _ hstep

/-- Claim C4: after any sequence of `play`/`pause`/`stop` calls starting
from the freshly constructed engine, `is_playing` and `is_paused` are
never simultaneously true. -/
theorem play_pause_stop_mutually_exclusive (ops : List PlayOp) :
    ((runOps initEngine ops).is_playing && (runOps initEngine ops).is_paused) = false := by
  have h := exclusiveInv_runOps ops initEngine (Or.inl rfl)
  rcases h with h | h <;> simp [h]

/-! ## Visualization delivery queue -/

/-- Claim C1: the delivery queue constructed by `__init__` is
`queue.Queue()` with the unbounded default `maxsize = 0`, so it never
reports full and the worker's drop-oldest handler never runs: pushing
two frames with no consumer leaves both queued, contradicting the
claimed bounded drop-oldest behaviour. -/
theorem vis_queue_is_unbounded :
    initVisQueue.maxsize = 0 ∧
    (visWorkerPut (visWorkerPut initVisQueue [0]) [1]).items = [[0], [1]] :=
  ⟨rfl, rfl⟩

/-! ## pause as a no-op outside Playing -/

/-- Claim C9: calling `pause` when the engine is not playing (stopped
or already paused) leaves the whole state unchanged. -/
theorem pause_noop_when_not_playing (s : EngineState)
    (h : s.is_playing = false) : pause s = s := by
  simp [pause, h]

/-- Witness for C9 at the freshly constructed (stopped) engine. -/
theorem pause_noop_when_not_playing_witness : pause initEngine = initEngine :=
  pause_noop_when_not_playing initEngine rfl

/-! ## Stereo query -/

/-- Claim C10: `is_stereo_track` returns true with no track loaded, and
with a track loaded it returns true exactly when the decoded 2-D buffer
has two channels (a 1-D mono buffer is never stereo). -/
theorem is_stereo_track_characterization (s : EngineState) :
    (s.audio_data = none → is_stereo_track s = true) ∧
    (∀ l, s.audio_data = some (.oneD l) → is_stereo_track s = false) ∧
    (∀ chans, s.audio_data = some (.twoD chans) →
      (is_stereo_track s = true ↔ chans.length = 2)) := by
  refine ⟨fun h => by simp [is_stereo_track, h],
    fun l h => by simp [is_stereo_track, h],
    fun chans h => by simp [is_stereo_track, h]⟩

/-- Witness for C10: no track, a 1-D mono track, and a 2-channel
track. -/
theorem is_stereo_track_characterization_witness :
    is_stereo_track initEngine = true ∧
    is_stereo_track { initEngine with audio_data := some (.oneD [0]) } = false ∧
    is_stereo_track { initEngine with audio_data := some (.twoD [[0], [0]]) } = true :=
  ⟨(is_stereo_track_characterization initEngine).1 rfl,
   (is_stereo_track_characterization _).2.1 [0] rfl,
   ((is_stereo_track_characterization _).2.2 [[0], [0]] rfl).2 rfl⟩

/-! ## Load failure behaviour -/

/-- Amended claim C2: every failed load returns `False`, but the engine
state is not preserved.  On a decode exception, playback has been
stopped by `_ensure_stopped` (and nothing else changed); on a
zero-length decoded result, the partial track is installed — new file
path, the empty buffer, recomputed duration, position 0 and cleared
seek state — before `False` is returned. -/
theorem load_track_failure_paths (s : EngineState) (p : String) :
    ((load_track s p (.error ())).1 = false ∧
     (load_track s p (.error ())).2 = ensure_stopped s) ∧
    (∀ (ad : AudioData) (sr : ℚ), pyLen ad = 0 →
      (load_track s p (.ok (ad, sr))).1 = false ∧
      (load_track s p (.ok (ad, sr))).2 =
        { ensure_stopped s with
            audio_data := some ad
            sample_rate := some sr
            current_position := 0
            file_path := some p
            duration := if sr ≠ 0 then ((shapeLast ad : ℚ) / sr) else 0
            seek_requested := false
            seek_position := 0 }) := by
  refine ⟨⟨rfl, rfl⟩, fun ad sr h => ⟨?_, ?_⟩⟩
  · simp [load_track, h]
  · simp [load_track, h]

/-- Witness for the amended C2 at a concrete failing load (zero-length
decode result). -/
theorem load_track_failure_paths_witness :
    (load_track oldTrackState "new.mp3" (.ok (.oneD [], 44100))).1 = false :=
  ((load_track_failure_paths oldTrackState "new.mp3").2 (.oneD []) 44100 rfl).1

/-- Counterexample to C2 as stated: loading a file that decodes to a
zero-length buffer over a loaded, playing track returns `False` yet
changes the stored file path (and more), so the state does not remain
what it was before the call. -/
theorem load_track_failure_mutates_state :
    (load_track oldTrackState "new.mp3" (.ok (.oneD [], 44100))).1 = false ∧
    (load_track oldTrackState "new.mp3" (.ok (.oneD [], 44100))).2.file_path ≠
      oldTrackState.file_path := by
  constructor
  · rfl
  · show (some "new.mp3" : Option String) ≠ some "old.mp3"
    simp

/-! ## Seek clamping -/

theorem ratTrunc_nonpos {x : ℚ} (h : x ≤ 0) : ratTrunc x ≤ 0 := by
  unfold ratTrunc
  split
  · calc ⌊x⌋ ≤ ⌊(0 : ℚ)⌋ := Int.floor_le_floor h
      _ = 0 := Int.floor_zero
  · calc ⌈x⌉ ≤ ⌈(0 : ℚ)⌉ := Int.ceil_le_ceil h
      _ = 0 := Int.ceil_zero

/-- Claim C6: for every seek fraction the stored position is clamped
into `[0, duration]`; it equals the absolute sample index clamped into
`[0, total samples]` divided by the sample rate; and the out-of-range
fractions `-1/2` and `3/2` land exactly on `0` and `duration`.  The
hypothesis `duration * sr = n` records that the duration was derived
from the sample count `n` on load. -/
theorem seek_position_clamped (s : EngineState) (sr : ℚ) (n : ℕ)
    (hd : s.audio_data.isSome = true)
    (hsr : s.sample_rate = some sr) (h0 : 0 < sr)
    (hdur : s.duration * sr = (n : ℚ)) :
    (∀ f : ℚ, 0 ≤ (seek s f).current_position ∧
      (seek s f).current_position ≤ s.duration) ∧
    (∀ f : ℚ, (seek s f).current_position =
      max 0 (min ((n : ℚ)) ((ratTrunc (f * s.duration * sr) : ℚ))) / sr) ∧
    (seek s (-(1 / 2))).current_position = 0 ∧
    (seek s (3 / 2)).current_position = s.duration := by
  obtain ⟨d, hd'⟩ := Option.isSome_iff_exists.mp hd
  have hdurEq : s.duration = (n : ℚ) / sr := by
    field_simp
    linarith [hdur]
  have hdur0 : 0 ≤ s.duration := by
    rw [hdurEq]
    positivity
  have hpos : ∀ f : ℚ, (seek s f).current_position =
      max 0 (min s.duration ((ratTrunc (f * s.duration * sr) : ℚ) / sr)) := by
    intro f
    simp [seek, hd', hsr, if_pos h0]
  have hclip : ∀ t : ℚ, max 0 (min s.duration (t / sr)) =
      max 0 (min ((n : ℚ)) t) / sr := by
    intro t
    calc max 0 (min s.duration (t / sr))
        = max (0 / sr) (min ((n : ℚ)) t / sr) := by
          rw [hdurEq, min_div_div_right h0.le, zero_div]
      _ = max 0 (min ((n : ℚ)) t) / sr := by
          rw [max_div_div_right h0.le]
  refine ⟨fun f => ?_, fun f => ?_, ?_, ?_⟩
  · rw [hpos f]
    exact ⟨le_max_left _ _, max_le hdur0 (min_le_left _ _)⟩
  · rw [hpos f, hclip]
  · rw [hpos]
    have harg : (-(1 / 2) : ℚ) * s.duration * sr = -((n : ℚ) / 2) := by
      rw [mul_assoc, hdur]
      ring
    rw [harg]
    have ht : ratTrunc (-((n : ℚ) / 2)) ≤ 0 :=
      ratTrunc_nonpos (neg_nonpos.mpr (by positivity))
    have htq : ((ratTrunc (-((n : ℚ) / 2)) : ℚ)) / sr ≤ 0 := by
      apply div_nonpos_of_nonpos_of_nonneg _ h0.le
      exact_mod_cast ht
    exact max_eq_left (le_trans (min_le_right _ _) htq)
  · rw [hpos]
    have harg : ((3 / 2) : ℚ) * s.duration * sr = (3 / 2) * (n : ℚ) := by
      rw [mul_assoc, hdur]
    rw [harg]
    have hfloor : (n : ℤ) ≤ ratTrunc ((3 / 2) * (n : ℚ)) := by
      unfold ratTrunc
      rw [if_pos (by positivity)]
      refine Int.le_floor.mpr ?_
      push_cast
      have : (0 : ℚ) ≤ (n : ℚ) := by positivity
      linarith
    have hge : s.duration ≤ ((ratTrunc ((3 / 2) * (n : ℚ)) : ℚ)) / sr := by
      rw [hdurEq]
      apply (div_le_div_iff_of_pos_right h0).mpr
      exact_mod_cast hfloor
    rw [min_eq_left hge]
    exact max_eq_right hdur0

/-- Witness for C6: on a loaded 1-second track, `seek (-1/2)` stores
position 0 and `seek (3/2)` stores position `duration = 1`. -/
theorem seek_position_clamped_witness :
    (seek seekDemoState (-(1 / 2))).current_position = 0 ∧
    (seek seekDemoState (3 / 2)).current_position = 1 := by
  have h := seek_position_clamped seekDemoState 2 2 rfl rfl (by norm_num)
    (by show (1 : ℚ) * 2 = ((2 : ℕ) : ℚ); norm_num)
  exact ⟨h.2.2.1, h.2.2.2⟩

/-! ## Equalizer identity at all-zero gains -/

/-- Claim C3: when every stored band gain (preamp and all ten frequency
bands) is exactly 0 dB, `_apply_eq_to_chunk` returns its input chunk
unchanged, exactly, for any chunk. -/
theorem eq_all_zero_bands_identity (s : EngineState) (chunk : AudioData)
    (h : ∀ p ∈ s.eq_bands, p.2 = (0 : ℝ)) :
    apply_eq_to_chunk s chunk = chunk := by
  unfold apply_eq_to_chunk
  rw [if_pos]
  right
  rintro ⟨p, hp, hne⟩
  exact hne (h p hp)

/-- Witness for C3: the full 11-band map at 0 dB leaves a concrete
chunk untouched. -/
theorem eq_all_zero_bands_identity_witness :
    apply_eq_to_chunk { initEngine with eq_bands := defaultBands }
      (.oneD [1, -2, 3]) = .oneD [1, -2, 3] :=
  eq_all_zero_bands_identity _ _ (by simp [defaultBands])

/-! ## set_eq replaces the full band map -/

theorem updateAssoc_cons (p : String × ℝ) (rest : List (String × ℝ))
    (k : String) (v : ℝ) :
    updateAssoc (p :: rest) k v =
      (if p.1 = k then (k, v) else p) :: updateAssoc rest k v := rfl

theorem updateAssoc_keys (l : List (String × ℝ)) (k : String) (v : ℝ) :
    (updateAssoc l k v).map Prod.fst = l.map Prod.fst := by
  induction l with
  | nil => rfl
  | cons p rest ih =>
      rw [updateAssoc_cons, List.map_cons, List.map_cons, ih]
      refine congrArg₂ List.cons ?_ rfl
      split
      next heq => exact heq.symm
      next => rfl

theorem lookupStr_updateAssoc_ne (l : List (String × ℝ)) (k : String) (v : ℝ)
    (name : String) (h : name ≠ k) :
    lookupStr (updateAssoc l k v) name = lookupStr l name := by
  induction l with
  | nil => rfl
  | cons p rest ih =>
      rw [updateAssoc_cons]
      by_cases hp : p.1 = k
      · rw [if_pos hp]
        simp only [lookupStr]
        rw [if_neg (fun he => h he.symm), if_neg (fun he => h (hp.symm.trans he).symm)]
        exact ih
      · rw [if_neg hp]
        simp only [lookupStr]
        split
        · rfl
        · exact ih

theorem lookupStr_updateAssoc_self (l : List (String × ℝ)) (k : String) (v : ℝ)
    (h : k ∈ l.map Prod.fst) :
    lookupStr (updateAssoc l k v) k = some v := by
  induction l with
  | nil => simp at h
  | cons p rest ih =>
      rw [updateAssoc_cons]
      by_cases hp : p.1 = k
      · rw [if_pos hp]
        simp [lookupStr]
      · rw [if_neg hp]
        simp only [lookupStr]
        rw [if_neg hp]
        apply ih
        simp only [List.map_cons, List.mem_cons] at h
        rcases h with h | h
        · exact absurd h.symm hp
        · exact h

theorem lookupStr_none_of_not_mem (l : List (String × ℝ)) (k : String)
    (h : k ∉ l.map Prod.fst) : lookupStr l k = none := by
  induction l with
  | nil => rfl
  | cons p rest ih =>
      simp only [List.map_cons, List.mem_cons, not_or] at h
      simp only [lookupStr]
      rw [if_neg (fun he => h.1 he.symm)]
      exact ih h.2

theorem lookupLast_eq_lookupStr (l : List (String × ℝ))
    (hnd : (l.map Prod.fst).Nodup) (name : String) :
    lookupLast l name = lookupStr l name := by
  induction l with
  | nil => rfl
  | cons p rest ih =>
      simp only [List.map_cons, List.nodup_cons] at hnd
      obtain ⟨hp, hrest⟩ := hnd
      by_cases hk : p.1 = name
      · have hnone : lookupStr rest name = none :=
          lookupStr_none_of_not_mem rest name (hk ▸ hp)
        simp [lookupLast, lookupStr, ih hrest, hnone, hk]
      · simp only [lookupLast, lookupStr, ih hrest, if_neg hk]
        cases lookupStr rest name <;> simp

theorem setEqFold_char (bands : List (String × ℝ)) :
    ∀ acc : List (String × ℝ), acc.map Prod.fst = bandNames →
      ((bands.foldl setEqStep acc).map Prod.fst = bandNames) ∧
      (∀ name ∈ bandNames,
        lookupStr (bands.foldl setEqStep acc) name =
          match lookupLast bands name with
          | some w => some w
          | none => lookupStr acc name) := by
  induction bands with
  | nil =>
      intro acc hacc
      exact ⟨hacc, fun name _ => by simp [lookupLast]⟩
  | cons kv rest ih =>
      intro acc hacc
      have hacc' : (setEqStep acc kv).map Prod.fst = bandNames := by
        unfold setEqStep
        split
        · rw [updateAssoc_keys, hacc]
        · exact hacc
      obtain ⟨ihkeys, ihchar⟩ := ih (setEqStep acc kv) hacc'
      refine ⟨by simpa [List.foldl_cons] using ihkeys, fun name hname => ?_⟩
      rw [List.foldl_cons, ihchar name hname]
      rcases hrest : lookupLast rest name with _ | w
      · by_cases hk : kv.1 = name
        · subst hk
          have hmem : kv.1 ∈ acc.map Prod.fst := by
            rw [hacc]
            exact hname
          have hstep : setEqStep acc kv = updateAssoc acc kv.1 kv.2 := by
            unfold setEqStep
            rw [if_pos hmem]
          simp [lookupLast, hrest, hstep, lookupStr_updateAssoc_self acc kv.1 kv.2 hmem]
        · have hstep2 : lookupStr (setEqStep acc kv) name = lookupStr acc name := by
            unfold setEqStep
            split
            · exact lookupStr_updateAssoc_ne acc kv.1 kv.2 name (fun he => hk he.symm)
            · rfl
          simp [lookupLast, hrest, hk, hstep2]
      · simp [lookupLast, hrest]

/-- Claim C8: `set_eq` is a full replace-with-defaults.  The resulting
band map has exactly the 11 named bands as keys, and each band's stored
gain is the caller-provided value when one was given and 0 dB
otherwise — independently of whatever `eq_bands` held before the call
(the state `s` does not occur on the right-hand sides). -/
theorem set_eq_full_replace (s : EngineState) (bands : List (String × ℝ))
    (hnd : (bands.map Prod.fst).Nodup) :
    ((set_eq s bands).eq_bands.map Prod.fst = bandNames) ∧
    (∀ name ∈ bandNames,
      lookupStr (set_eq s bands).eq_bands name =
        some ((lookupStr bands name).getD 0)) := by
  have h := setEqFold_char bands defaultBands rfl
  refine ⟨h.1, fun name hname => ?_⟩
  show lookupStr (bands.foldl setEqStep defaultBands) name = _
  rw [h.2 name hname, lookupLast_eq_lookupStr bands hnd name]
  cases hv : lookupStr bands name with
  | none =>
      have hdef : lookupStr defaultBands name = some 0 := by
        fin_cases hname <;> rfl
      simp [hdef]
  | some w => simp

/-- Witness for C8: a previously stored 60hz gain of 5 dB does not
survive `set_eq {"preamp": 3}`; the unspecified band falls back to 0 dB
and the specified one gets its new value. -/
theorem set_eq_full_replace_witness :
    lookupStr (set_eq { initEngine with eq_bands := [("60hz", 5)] }
      [("preamp", 3)]).eq_bands "60hz" = some 0 ∧
    lookupStr (set_eq { initEngine with eq_bands := [("60hz", 5)] }
      [("preamp", 3)]).eq_bands "preamp" = some 3 := by
  have h := set_eq_full_replace { initEngine with eq_bands := [("60hz", 5)] }
    [("preamp", 3)] (by simp)
  constructor
  · rw [h.2 "60hz" (by simp [bandNames])]
    rfl
  · rw [h.2 "preamp" (by simp [bandNames])]
    rfl

/-! ## End of buffer reaches Stopped at position == duration -/

/-- Claim C5: a callback invocation whose chunk reaches the end of the
decoded buffer clears `is_playing` and `is_paused` and leaves the
position exactly equal to the duration (which load derived as
`sample count / sample rate`). -/
theorem end_of_buffer_stops_at_duration (s : EngineState) (d : AudioData)
    (sr : ℚ) (start_idx frames : ℕ)
    (hd : s.audio_data = some d)
    (hsr : s.sample_rate = some sr) (h0 : 0 < sr)
    (hdur : s.duration = (shapeLast d : ℚ) / sr)
    (hseek : s.seek_requested = false)
    (hend : shapeLast d ≤ start_idx + frames) :
    (audio_callback d s start_idx frames).1.is_playing = false ∧
    (audio_callback d s start_idx frames).1.is_paused = false ∧
    (audio_callback d s start_idx frames).1.current_position = s.duration := by
  have hmin : min (start_idx + frames) (shapeLast d) = shapeLast d := min_eq_right hend
  have hposval : max 0 (min ((shapeLast d : ℚ) / sr) s.duration) = s.duration := by
    rw [hdur, min_self]
    exact max_eq_right (by positivity)
  simp [audio_callback, hseek, hsr, hmin, h0, hposval]

/-- Witness for C5: the 10-second 44100 Hz mono silent track, rendered
over the final chunk, ends stopped at position 10 = duration. -/
theorem end_of_buffer_stops_at_duration_witness :
    (audio_callback track10s engine10s 440000 4096).1.is_playing = false ∧
    (audio_callback track10s engine10s 440000 4096).1.is_paused = false ∧
    (audio_callback track10s engine10s 440000 4096).1.current_position = 10 := by
  have h := end_of_buffer_stops_at_duration engine10s track10s 44100 440000 4096
    rfl rfl (by norm_num)
    (by show (10 : ℚ) = ((shapeLast track10s : ℚ)) / 44100
        simp only [track10s, shapeLast, List.length_replicate]
        norm_num)
    rfl
    (by simp only [track10s, shapeLast, List.length_replicate]
        norm_num)
  exact ⟨h.1, h.2.1, h.2.2⟩

/-! ## Spectrum frame shape -/

theorem listGetD_nonneg (l : List ℝ) :
    (∀ x ∈ l, 0 ≤ x) → ∀ i : ℕ, 0 ≤ l.getD i 0 := by
  induction l with
  | nil => exact fun _ _ => le_refl 0
  | cons x rest ih =>
      intro h i
      cases i with
      | zero => simpa using h x (by simp)
      | succ n =>
          simp only [List.getD_cons_succ]
          exact ih (fun y hy => h y (by simp [hy])) n

theorem bandMagnitude_nonneg (M : List ℝ) (hM : ∀ x ∈ M, 0 ≤ x) (a b : ℕ) :
    0 ≤ bandMagnitude M a b := by
  unfold bandMagnitude
  split
  · apply div_nonneg
    · apply List.sum_nonneg
      intro x hx
      exact hM x (List.mem_of_mem_drop (List.mem_of_mem_take hx))
    · positivity
  · split
    · exact listGetD_nonneg M hM a
    · exact le_refl 0

/-- Claim C7: a spectrum frame is always exactly 19 values, each in
`[0, 1]`, for every input buffer; a buffer of fewer than 512 samples
yields 19 zeros. -/
theorem spectrum_frame_shape (sr : Option ℚ) (buf : List ℝ) :
    (process_spectrum_data sr buf).length = 19 ∧
    (∀ x ∈ process_spectrum_data sr buf, 0 ≤ x ∧ x ≤ 1) ∧
    (buf.length < 512 → process_spectrum_data sr buf = List.replicate 19 0) := by
  by_cases h : buf.length < 512
  · unfold process_spectrum_data
    rw [if_pos h]
    refine ⟨by simp, ?_, fun _ => rfl⟩
    intro x hx
    rw [List.eq_of_mem_replicate hx]
    exact ⟨le_refl 0, zero_le_one⟩
  · unfold process_spectrum_data
    rw [if_neg h]
    refine ⟨by simp, ?_, fun hlt => absurd hlt h⟩
    intro x hx
    simp only [List.mem_map, List.mem_range] at hx
    obtain ⟨i, _, rfl⟩ := hx
    refine ⟨le_min zero_le_one ?_, min_le_left _ _⟩
    apply Real.rpow_nonneg
    apply bandMagnitude_nonneg
    intro y hy
    simp only [List.mem_map, List.mem_range] at hy
    obtain ⟨k, _, rfl⟩ := hy
    apply div_nonneg (AbsoluteValue.nonneg _ _)
    positivity

/-- Witness for C7: a 1-sample buffer is under the 512-sample minimum
and yields the 19-zero frame. -/
theorem spectrum_frame_shape_witness :
    process_spectrum_data none [0] = List.replicate 19 0 :=
  (spectrum_frame_shape none [0]).2.2 (by norm_num)
